import Mathlib

/-!
Shallow embedding of the screen-recorder core:
format registry (`FormatSettings.tsx`), recording session control and
artifact construction (`ScreenRecorder.tsx`, both shipped variants), and
the ffmpeg transcode hook (`useFfmpegConvert.ts`).

Host services are modelled explicitly: the capability query
`MediaRecorder.isTypeSupported` becomes a parameter `sup : String → Bool`,
blob byte buffers become their byte sizes (`Nat`), object-URL reference
handles become numeric locators, and toast notifications become a list of
emitted event strings.  Display-only fields that require floating-point
formatting (the "x.xx MB" size label) are not modelled; no claim depends
on them.
-/

/-- Boolean prefix test on lists, used to mirror JavaScript
`String.prototype.includes`. -/
def isPrefixB [BEq α] : List α → List α → Bool
  | [], _ => true
  | _ :: _, [] => false
  | a :: as, b :: bs => a == b && isPrefixB as bs

/-- Boolean contiguous-substring test on lists. -/
def isInfixB [BEq α] (needle : List α) : List α → Bool
  | [] => needle.isEmpty
  | b :: bs => isPrefixB needle (b :: bs) || isInfixB needle bs

/-- JavaScript `s.includes(sub)`: `sub` occurs contiguously in `s`. -/
def strIncludes (s sub : String) : Bool :=
  isInfixB sub.data s.data

/-- JavaScript `name.replace(/[^a-zA-Z0-9]/g, '_')` on one character. -/
def sanitizeChar (c : Char) : Char :=
  if c.isAlpha || c.isDigit then c else '_'

/-- JavaScript `name.replace(/[^a-zA-Z0-9]/g, '_')`. -/
def sanitizeName (s : String) : String :=
  String.mk (s.data.map sanitizeChar)

/-- One entry of the format registry (`FormatOption` in
`FormatSettings.tsx`).  The optional `quality` hint is carried verbatim. -/
structure FormatOption where
  value : String
  label : String
  mimeType : String
  extension : String
  quality : Option String := none
deriving Repr, DecidableEq

/-- The static format catalog `rawFormatOptions` from `FormatSettings.tsx`
(exported there as `formatOptions`). -/
def formatOptions : List FormatOption :=
  [ ⟨"mp4-h264", "Linkedin Compatible", "video/mp4", "mp4", some "high"⟩,
    ⟨"webm-generic", "Whats Compatible (WhatsApp, File Safe)", "video/webm", "webm", some "high"⟩,
    ⟨"webm-vp9", "WebM (VP9)", "video/webm; codecs=vp9", "webm", some "high"⟩,
    ⟨"webm-vp8", "WebM (VP8)", "video/webm; codecs=vp8", "webm", some "medium"⟩,
    ⟨"mkv", "MKV", "video/x-matroska", "mkv", some "high"⟩,
    ⟨"avi", "AVI", "video/avi", "avi", some "medium"⟩,
    ⟨"mov", "MOV", "video/quicktime", "mov", some "high"⟩,
    ⟨"wav", "WAV (Audio Only)", "audio/wav", "wav", none⟩,
    ⟨"mp3", "MP3 (Audio Only)", "audio/mp3", "mp3", none⟩,
    ⟨"ogg", "OGG (Audio Only)", "audio/ogg", "ogg", none⟩ ]

/-- One entry of `qualityOptions` in `FormatSettings.tsx`. -/
structure QualityOption where
  value : String
  label : String
  bitrate : String
deriving Repr, DecidableEq

/-- The static quality-tier catalog `qualityOptions` from
`FormatSettings.tsx`. -/
def qualityOptions : List QualityOption :=
  [ ⟨"low", "Low (480p)", "500kbps"⟩,
    ⟨"medium", "Medium (720p)", "1.5Mbps"⟩,
    ⟨"high", "High (1080p)", "3Mbps"⟩,
    ⟨"ultra", "Ultra (1440p)", "6Mbps"⟩ ]

/-- `getSelectedFormatOption` from `ScreenRecorder.tsx`:
`formatOptions.find(o => o.value === selectedFormat) || formatOptions[0]`. -/
def getSelectedFormatOption (selectedFormat : String) : FormatOption :=
  (formatOptions.find? (fun o => o.value == selectedFormat)).getD
    ⟨"mp4-h264", "Linkedin Compatible", "video/mp4", "mp4", some "high"⟩

/-- The `videoBitsPerSecond` expression in the `recorderOptions` literal of
`startRecording` (identical in both variants of `ScreenRecorder.tsx`). -/
def videoBitsPerSecond (quality : String) : Nat :=
  if quality == "ultra" then 4000000
  else if quality == "high" then 2500000
  else if quality == "medium" then 1500000
  else 800000

/-- A history entry (the `Recording` interface of `ScreenRecorder.tsx`).
`url` is the object-URL reference handle, modelled as a numeric locator;
`byteSize` is the underlying blob's size in bytes (the source additionally
renders it as a "x.xx MB" display string, which is not modelled). -/
structure Recording where
  id : String
  name : String
  url : Nat
  format : String
  byteSize : Nat
  duration : String
deriving Repr, DecidableEq

namespace V1
/-!
First shipped variant of `ScreenRecorder.tsx` (the one whose default
format is `webm-vp9` and whose `trueMp4Supported` is the constant
`() => false`).
-/

/-- The mime-type selection chain in `startRecording` (variant 1): always
a WebM mime, preferring VP9, then VP8, then bare `video/webm`.  `sup` is
the host capability query `MediaRecorder.isTypeSupported`. -/
def chooseMimeType (sup : String → Bool) : String :=
  if sup "video/webm; codecs=vp9" then "video/webm; codecs=vp9"
  else if sup "video/webm; codecs=vp8" then "video/webm; codecs=vp8"
  else "video/webm"

/-- `trueMp4Supported` in variant 1: `() => false` — MP4 recording was
removed. -/
def trueMp4Supported : Bool := false

/-- The file-extension computation inside `createRecordingEntry`:
start from `webm`; an `mp4` mime yields `mp4` (a "real" MP4), a `webm`
mime yields `webm`; a requested-but-not-real MP4 is forced back to
`webm`.  Identical in both variants. -/
def fileExtensionFor (mimeType : String) (formatOption : FormatOption) : String :=
  let realMp4 := strIncludes mimeType "mp4"
  let ext :=
    if strIncludes mimeType "mp4" then "mp4"
    else if strIncludes mimeType "webm" then "webm"
    else "webm"
  if formatOption.value == "mp4-h264" && !realMp4 then "webm" else ext

/-- `createRecordingEntry` (identical in both variants): concatenates the
chunks into a blob (modelled by the sum of the chunk sizes), rejects a
zero-byte blob (`none`, surfaced in the source as the toast
'Recording failed - no data captured'), otherwise creates an object URL
(the fresh handle `freshUrl`) and prepends a new `Recording` whose
`duration` field is the constant `'00:00'`.  `idStr` and `name` stand for
the `Date.now()` id and the timestamp-based display name. -/
def createRecordingEntry (chunks : List Nat) (mimeType : String)
    (formatOption : FormatOption) (freshUrl : Nat) (idStr name : String) :
    Option Recording :=
  let blobSize := chunks.sum
  if blobSize == 0 then none
  else some
    { id := idStr
      name := name
      url := freshUrl
      format := fileExtensionFor mimeType formatOption
      byteSize := blobSize
      duration := "00:00" }

/-- The file name computed by `downloadRecording`:
`` `${name.replace(...)}.${recording.format}` ``, replaced by a `.webm`
name when the entry claims `mp4` but `trueMp4Supported()` is false. -/
def downloadFileName (r : Recording) (sup : Bool) : String :=
  if r.format == "mp4" && !sup then sanitizeName r.name ++ "." ++ "webm"
  else sanitizeName r.name ++ "." ++ r.format

/-- The `Recording` literal passed to `downloadRecording` by the preview
tab's Download button: `format` is `getSelectedFormatOption().extension`
(the *requested* extension), size `'0 MB'`, duration `'00:00'`. -/
def previewDownloadEntry (selectedFormat : String) (nameStr : String)
    (u : Nat) : Recording :=
  { id := "current"
    name := nameStr
    url := u
    format := (getSelectedFormatOption selectedFormat).extension
    byteSize := 0
    duration := "00:00" }

/-- `deleteRecording`: revoke the object URL of the first entry matching
`id` (if any), then drop every entry with that id.  Returns the new list
and the list of released handles. -/
def deleteRecording (id : String) (recs : List Recording) :
    List Recording × List Nat :=
  let remaining := recs.filter (fun r => r.id != id)
  match recs.find? (fun r => r.id == id) with
  | some r => (remaining, [r.url])
  | none => (remaining, [])

/-- `ondataavailable` (identical in both variants): append the chunk only
when `e.data.size > 0`. -/
def pushChunk (chunks : List Nat) (size : Nat) : List Nat :=
  if size > 0 then chunks ++ [size] else chunks

/-- Outcome of finalizing a recording: a history entry, or the typed
empty-capture failure (carrying the toast message the source emits). -/
inductive RecOutcome where
  | entry (r : Recording)
  | emptyCapture (msg : String)
deriving Repr, DecidableEq

/-- The `recorder.onstop` chunk processing: with at least one buffered
chunk, delegate to `createRecordingEntry` (whose zero-byte guard is the
second empty-capture source); with none, emit
'No recording data available'. -/
def finalize (chunks : List Nat) (mimeType : String)
    (formatOption : FormatOption) (freshUrl : Nat) (idStr name : String) :
    RecOutcome :=
  if chunks.length > 0 then
    match createRecordingEntry chunks mimeType formatOption freshUrl idStr name with
    | some r => .entry r
    | none => .emptyCapture "Recording failed - no data captured"
  else .emptyCapture "No recording data available"

/-- The component state that drives the session: the `mediaRecorder`
ref being set, the `recording` and `paused` flags, whether
`mediaRecorder.stop()` has been requested (after which the host recorder
is inactive until `onstop` fires), and the buffered chunk sizes. -/
structure SessionState where
  recorderSet : Bool
  recording : Bool
  paused : Bool
  stopRequested : Bool
  chunks : List Nat
deriving Repr, DecidableEq

/-- Initial component state: no recorder, not recording. -/
def initState : SessionState :=
  { recorderSet := false, recording := false, paused := false
    stopRequested := false, chunks := [] }

/-- The spec-level session state, as an abstraction of the component
flags: no recorder yet is Idle; a live recorder with a pending stop is
Finalizing; otherwise the `recording`/`paused` flags distinguish
Capturing and Paused; a recorder whose run has ended is Stopped. -/
inductive SState where
  | idle | capturing | paused | finalizing | stopped
deriving Repr, DecidableEq

/-- Abstraction from component flags to spec-level states. -/
def label (s : SessionState) : SState :=
  if !s.recorderSet then .idle
  else if s.recording && s.stopRequested then .finalizing
  else if s.recording && s.paused then .paused
  else if s.recording then .capturing
  else .stopped

/-- `pauseRecording`: guarded by `mediaRecorder && recording && !paused`.
When the guard passes but `stop()` was already requested, the host
`mediaRecorder.pause()` throws `InvalidStateError` on the inactive
recorder before `setPaused(true)` or the toast runs, so nothing changes.
Returns (new state, emitted toasts). -/
def pauseRecording (s : SessionState) : SessionState × List String :=
  if s.recorderSet && s.recording && !s.paused then
    if s.stopRequested then (s, [])
    else ({ s with paused := true }, ["Recording paused"])
  else (s, [])

/-- `resumeRecording`: guarded by `mediaRecorder && recording && paused`;
same host-throw consideration as `pauseRecording`. -/
def resumeRecording (s : SessionState) : SessionState × List String :=
  if s.recorderSet && s.recording && s.paused then
    if s.stopRequested then (s, [])
    else ({ s with paused := false }, ["Recording resumed"])
  else (s, [])

/-- `stopRecording`: guarded by `mediaRecorder && recording`; requests the
final flush via `mediaRecorder.stop()`. -/
def stopRecording (s : SessionState) : SessionState × List String :=
  if s.recorderSet && s.recording then
    ({ s with stopRequested := true }, ["Processing your recording..."])
  else (s, [])

/-- Events driving the session: the four user operations, an asynchronous
chunk delivery, and the host recorder's terminal `onstop` callback. -/
inductive SessionEvent where
  | start
  | dataAvailable (size : Nat)
  | pause
  | resume
  | stopReq
  | recorderStopped
deriving Repr, DecidableEq

/-- One step of the session, parametrised by the capability query and the
selected format.  `start` installs a fresh recorder with an empty chunk
buffer (variant 1 always records WebM and warns when `mp4-h264` was
requested); `recorderStopped` models `recorder.onstop`: stop the stream
tracks, process the chunks, clear `recording`/`paused`.  Returns the new
state, emitted toasts, and the finalization outcome if one occurred. -/
def step (sup : String → Bool) (selectedFormat : String)
    (s : SessionState) (e : SessionEvent) :
    SessionState × List String × Option RecOutcome :=
  match e with
  | .start =>
      ({ recorderSet := true, recording := true, paused := s.paused
         stopRequested := false, chunks := [] },
       (if (getSelectedFormatOption selectedFormat).value == "mp4-h264" then
          ["MP4 direct recording is no longer available. Record in WebM and then convert."]
        else []) ++ ["Recording started in WebM format"],
       none)
  | .dataAvailable n => ({ s with chunks := pushChunk s.chunks n }, [], none)
  | .pause => let (s', ev) := pauseRecording s; (s', ev, none)
  | .resume => let (s', ev) := resumeRecording s; (s', ev, none)
  | .stopReq => let (s', ev) := stopRecording s; (s', ev, none)
  | .recorderStopped =>
      if s.recorderSet && s.stopRequested then
        ({ s with recording := false, paused := false },
         [],
         some (finalize s.chunks (chooseMimeType sup)
                 (getSelectedFormatOption selectedFormat) 1 "1"
                 "Screen Recording"))
      else (s, [], none)

/-- Run a sequence of session events from the initial state, collecting
the spec-level state after every step (the trace starts at the initial
label) and every finalization outcome. -/
def run (sup : String → Bool) (selectedFormat : String)
    (es : List SessionEvent) : SessionState × List SState × List RecOutcome :=
  es.foldl
    (fun acc e =>
      let s' := step sup selectedFormat acc.1 e
      (s'.1, acc.2.1 ++ [label s'.1], acc.2.2 ++ s'.2.2.toList))
    (initState, [label initState], [])

end V1

namespace V2
/-!
Second shipped variant of `ScreenRecorder.tsx` (default format
`mp4-h264`, with a real `trueMp4Supported` capability probe).
-/

/-- The exact mp4 codec string handed to the recorder on the MP4 path. -/
def mp4Full : String := "video/mp4; codecs=\"avc1.42E01E, mp4a.40.2\""

/-- The video-only H.264 probe string. -/
def mp4VideoOnly : String := "video/mp4; codecs=\"avc1.42E01E\""

/-- `trueMp4Supported` in variant 2: any of the three mp4 probes
succeeding counts as "true" support. -/
def trueMp4Supported (sup : String → Bool) : Bool :=
  sup mp4Full || sup mp4VideoOnly || sup "video/mp4"

/-- The `useMp4` flag in `startRecording`:
`formatOption.value === 'mp4-h264' && trueMp4Supported()`. -/
def useMp4 (sup : String → Bool) (formatValue : String) : Bool :=
  formatValue == "mp4-h264" && trueMp4Supported sup

/-- The mime-type selection chain in `startRecording` (variant 2): the
exact mp4 codec string when `useMp4`, otherwise VP9, VP8, or the bare
`video/webm` fallback. -/
def chooseMimeType (sup : String → Bool) (formatValue : String) : String :=
  if useMp4 sup formatValue then mp4Full
  else if sup "video/webm; codecs=vp9" then "video/webm; codecs=vp9"
  else if sup "video/webm; codecs=vp8" then "video/webm; codecs=vp8"
  else "video/webm"

end V2

namespace Ffmpeg
/-!
`useFfmpegConvert.ts` (both variants share the scratch-file lifecycle and
the progress reporting; they differ only in module loading and in the
exact ffmpeg argument list, neither of which affects these claims).

The engine's private scratch storage (the MEMFS the source manipulates
through `ffmpeg.FS('writeFile'|'readFile'|'unlink', …)`) is modelled as
the set of entry names present, and `ffmpeg.run` by a Boolean `runOk`
telling whether the command succeeds or throws.  The engine's progress
callback supplies a sequence of `ratio` values in `[0,1]`
(the boundary contract types the callback as `(ratio: 0..1)`).
-/

/-- `ffmpeg.FS('writeFile', name, …)`: the named entry exists afterwards. -/
def fsWrite (fs : List String) (name : String) : List String :=
  if fs.contains name then fs else name :: fs

/-- `ffmpeg.FS('unlink', name)`: the named entry is removed. -/
def fsUnlink (fs : List String) (name : String) : List String :=
  fs.filter (fun n => n != name)

/-- The scratch-storage effect of one `convertWebmToMp4` call.
Success path: write `input.webm`, `ffmpeg.run` produces `output.mp4`,
read it back, then unlink both entries.  Failure path (the `catch`
branch): the error state is set and `null` returned — no unlink runs, so
the written `input.webm` entry (and no `output.mp4`) remains. -/
def convertScratch (fs : List String) (runOk : Bool) : List String :=
  let afterWrite := fsWrite fs "input.webm"
  if runOk then
    fsUnlink (fsUnlink (fsWrite afterWrite "output.mp4") "input.webm") "output.mp4"
  else afterWrite

/-- Whether a `convertWebmToMp4` call returns a usable output URL:
`some` fresh locator on success, `none` from the `catch` branch. -/
def convertResult (runOk : Bool) (freshUrl : Nat) : Option Nat :=
  if runOk then some freshUrl else none

/-- JavaScript `Math.round` on a non-negative rational:
round half away from zero, i.e. `⌊q + 1/2⌋`. -/
def jsRound (q : ℚ) : ℤ := ⌊q + 1 / 2⌋

/-- One reported progress value: `Math.round(ratio * 100)`. -/
def progressOfRatio (r : ℚ) : ℤ := jsRound (r * 100)

/-- The sequence of `progress` values a `convertWebmToMp4` call stores
over time: the initial `setState` writes `0`; each engine ratio callback
writes `Math.round(ratio * 100)`; the terminal `setState` writes `100`
on success and `0` in the `catch` branch. -/
def progressTrace (ratios : List ℚ) (runOk : Bool) : List ℤ :=
  0 :: ratios.map progressOfRatio ++ [if runOk then 100 else 0]

end Ffmpeg

/-- C9: the quality-tier-to-bitrate mapping used to construct the
streaming encoder is a fixed total function over exactly the four tiers
low, medium, high, ultra, and is strictly increasing from low to ultra. -/
theorem C9_bitrate_map_strictly_monotone :
    qualityOptions.map (fun q => q.value) = ["low", "medium", "high", "ultra"] ∧
    List.Chain' (· < ·)
      ((qualityOptions.map (fun q => q.value)).map videoBitsPerSecond) := by
  refine ⟨by decide, ?_⟩
  show List.Chain' (· < ·) [800000, 1500000, 2500000, 4000000]
  simp [List.chain'_cons, List.chain'_singleton]

/-- C10: every history entry produced by `createRecordingEntry` carries
the constant duration label "00:00", independent of the captured
content. -/
theorem C10_duration_label_constant (chunks : List Nat) (mime : String)
    (fmt : FormatOption) (u : Nat) (idStr nm : String) (r : Recording)
    (h : V1.createRecordingEntry chunks mime fmt u idStr nm = some r) :
    r.duration = "00:00" := by
  unfold V1.createRecordingEntry at h
  dsimp only at h
  split at h
  · exact Option.noConfusion h
  · simp only [Option.some.injEq] at h
    subst h
    rfl

/-- Witness for C10 at a concrete one-chunk recording. -/
theorem C10_witness :
    ({ id := "1", name := "rec", url := 1, format := "webm", byteSize := 10,
       duration := "00:00" } : Recording).duration = "00:00" :=
  C10_duration_label_constant [10] "video/webm"
    (getSelectedFormatOption "webm-vp9") 1 "1" "rec" _ (by decide)

/-- C8: `deleteRecording` releases exactly one reference handle when an
entry with the id exists and no entry with that id remains afterwards;
for an absent id it is a no-op releasing no handle. -/
theorem C8_remove_semantics (id : String) (recs : List Recording) :
    ((∃ r ∈ recs, r.id = id) →
        (V1.deleteRecording id recs).2.length = 1 ∧
        ∀ r ∈ (V1.deleteRecording id recs).1, r.id ≠ id) ∧
    ((∀ r ∈ recs, r.id ≠ id) → V1.deleteRecording id recs = (recs, [])) := by
  constructor
  · rintro ⟨r, hr, hid⟩
    have hfind : (recs.find? (fun r => r.id == id)).isSome := by
      rw [List.find?_isSome]
      exact ⟨r, hr, by simp [hid]⟩
    obtain ⟨r', hr'⟩ := Option.isSome_iff_exists.mp hfind
    refine ⟨?_, ?_⟩
    · simp [V1.deleteRecording, hr']
    · intro x hx
      simp only [V1.deleteRecording, hr'] at hx
      have := List.of_mem_filter hx
      simpa using this
  · intro h
    have hfind : recs.find? (fun r => r.id == id) = none := by
      rw [List.find?_eq_none]
      intro x hx
      simpa using h x hx
    have hfilter : recs.filter (fun r => r.id != id) = recs :=
      List.filter_eq_self.mpr (fun a ha => by simpa using h a ha)
    simp [V1.deleteRecording, hfind, hfilter]

/-- Witness for C8: a present id releases its single handle and empties
the store; an absent id is a no-op. -/
theorem C8_witness :
    ((V1.deleteRecording "1"
        [{ id := "1", name := "a", url := 5, format := "webm",
           byteSize := 10, duration := "00:00" }]).2.length = 1 ∧
      ∀ r ∈ (V1.deleteRecording "1"
        [{ id := "1", name := "a", url := 5, format := "webm",
           byteSize := 10, duration := "00:00" }]).1, r.id ≠ "1") ∧
    V1.deleteRecording "2"
        [{ id := "1", name := "a", url := 5, format := "webm",
           byteSize := 10, duration := "00:00" }] =
      ([{ id := "1", name := "a", url := 5, format := "webm",
          byteSize := 10, duration := "00:00" }], []) :=
  ⟨(C8_remove_semantics "1" _).1 (by decide),
   (C8_remove_semantics "2" _).2 (by decide)⟩

/-- C7: `pauseRecording` in any session state other than Capturing, and
`resumeRecording` in any state other than Paused, leave the state
unchanged and emit no event. -/
theorem C7_pause_resume_noop (s : V1.SessionState) :
    (V1.label s ≠ .capturing → V1.pauseRecording s = (s, [])) ∧
    (V1.label s ≠ .paused → V1.resumeRecording s = (s, [])) := by
  obtain ⟨rs, rec, p, sr, ch⟩ := s
  cases rs <;> cases rec <;> cases p <;> cases sr <;>
    simp [V1.label, V1.pauseRecording, V1.resumeRecording]

/-- Witness for C7 at the initial (Idle) state. -/
theorem C7_witness :
    V1.pauseRecording V1.initState = (V1.initState, []) ∧
    V1.resumeRecording V1.initState = (V1.initState, []) :=
  ⟨(C7_pause_resume_noop V1.initState).1 (by decide),
   (C7_pause_resume_noop V1.initState).2 (by decide)⟩

/-- C6: starting a session, emitting chunks of 1000, 2000 and 1500 bytes
and stopping yields exactly one artifact of byte size 4500, and the
spec-level state trace (with stuttering collapsed) is
Idle, Capturing, Finalizing, Stopped. -/
theorem C6_three_chunk_run :
    (V1.run (fun _ => false) "webm-vp9"
        [.start, .dataAvailable 1000, .dataAvailable 2000,
         .dataAvailable 1500, .stopReq, .recorderStopped]).2.2 =
      [.entry { id := "1", name := "Screen Recording", url := 1,
                format := "webm", byteSize := 4500, duration := "00:00" }] ∧
    ((V1.run (fun _ => false) "webm-vp9"
        [.start, .dataAvailable 1000, .dataAvailable 2000,
         .dataAvailable 1500, .stopReq, .recorderStopped]).2.1).destutter
        (· ≠ ·) =
      [.idle, .capturing, .finalizing, .stopped] := by
  decide

/-- C5: a session in which no non-empty chunk was ever delivered
finalizes to the typed empty-capture failure, and no artifact with zero
byte size is ever produced. -/
theorem C5_empty_capture (raw : List Nat) (mime : String)
    (fmt : FormatOption) (u : Nat) (idStr nm : String) :
    ((∀ c ∈ raw, c = 0) →
        V1.finalize (raw.foldl V1.pushChunk []) mime fmt u idStr nm =
          .emptyCapture "No recording data available") ∧
    (∀ chunks r,
        V1.finalize chunks mime fmt u idStr nm = .entry r →
        r.byteSize ≠ 0) := by
  constructor
  · intro h
    have hnil : ∀ (l acc : List Nat), (∀ c ∈ l, c = 0) →
        l.foldl V1.pushChunk acc = acc := by
      intro l
      induction l with
      | nil => intro acc _; rfl
      | cons a t ih =>
          intro acc ha
          have ha0 : a = 0 := ha a (List.mem_cons_self a t)
          have hp : V1.pushChunk acc a = acc := by
            simp [V1.pushChunk, ha0]
          rw [List.foldl_cons, hp]
          exact ih acc (fun c hc => ha c (List.mem_cons_of_mem a hc))
    rw [hnil raw [] h]
    rfl
  · intro chunks r hr
    unfold V1.finalize at hr
    split at hr
    · cases hc : V1.createRecordingEntry chunks mime fmt u idStr nm with
      | none =>
          rw [hc] at hr
          exact V1.RecOutcome.noConfusion hr
      | some r' =>
          rw [hc] at hr
          have hrr : r' = r := by
            simpa [V1.RecOutcome.entry.injEq] using hr
          subst hrr
          unfold V1.createRecordingEntry at hc
          dsimp only at hc
          split at hc
          · exact Option.noConfusion hc
          · next hsz =>
              simp only [Option.some.injEq] at hc
              subst hc
              simpa using hsz
    · exact V1.RecOutcome.noConfusion hr

/-- Witness for C5: an all-empty delivery sequence yields the
empty-capture failure, and the one-chunk artifact has non-zero size. -/
theorem C5_witness :
    V1.finalize ([0, 0].foldl V1.pushChunk []) "video/webm"
        (getSelectedFormatOption "webm-vp9") 1 "1" "rec" =
      .emptyCapture "No recording data available" ∧
    ({ id := "1", name := "rec", url := 1, format := "webm",
       byteSize := 100, duration := "00:00" } : Recording).byteSize ≠ 0 :=
  ⟨(C5_empty_capture [0, 0] "video/webm" (getSelectedFormatOption "webm-vp9")
      1 "1" "rec").1 (by decide),
   (C5_empty_capture [0, 0] "video/webm" (getSelectedFormatOption "webm-vp9")
      1 "1" "rec").2 [100] _ (by decide)⟩

/-- C2 counterexample: a conversion whose engine command fails leaves the
`input.webm` scratch entry behind — the scratch storage is not cleaned on
the failure path. -/
theorem C2_counterexample :
    "input.webm" ∈ Ffmpeg.convertScratch [] false := by
  decide

/-- C2 amended: both scratch entries are removed before the operation
returns on the success path; on the failure path no cleanup runs and the
input scratch entry remains. -/
theorem C2_amended (fs : List String) (runOk : Bool) :
    (runOk = true →
        "input.webm" ∉ Ffmpeg.convertScratch fs runOk ∧
        "output.mp4" ∉ Ffmpeg.convertScratch fs runOk) ∧
    (runOk = false → "input.webm" ∈ Ffmpeg.convertScratch fs runOk) := by
  constructor
  · rintro rfl
    constructor <;>
      simp [Ffmpeg.convertScratch, Ffmpeg.fsUnlink, List.mem_filter]
  · rintro rfl
    show "input.webm" ∈ Ffmpeg.fsWrite fs "input.webm"
    unfold Ffmpeg.fsWrite
    split
    · next hc => simpa using hc
    · exact List.mem_cons_self _ _

/-- Witness for C2 amended at a concrete empty initial scratch store. -/
theorem C2_witness :
    ("input.webm" ∉ Ffmpeg.convertScratch [] true ∧
     "output.mp4" ∉ Ffmpeg.convertScratch [] true) ∧
    "input.webm" ∈ Ffmpeg.convertScratch ["leftover"] false :=
  ⟨(C2_amended [] true).1 rfl, (C2_amended ["leftover"] false).2 rfl⟩

/-- C4 counterexample: when the engine command fails after having
reported 50% progress, the stored progress sequence is 0, 50, 0, which is
not monotonically non-decreasing. -/
theorem C4_counterexample :
    ¬ List.Chain' (· ≤ ·) (Ffmpeg.progressTrace [1 / 2] false) := by
  have h50 : Ffmpeg.progressOfRatio (1 / 2) = 50 := by
    norm_num [Ffmpeg.progressOfRatio, Ffmpeg.jsRound, Int.floor_eq_iff]
  have ht : Ffmpeg.progressTrace [1 / 2] false = [0, 50, 0] := by
    simp only [Ffmpeg.progressTrace, List.map_cons, List.map_nil, h50]
    rfl
  rw [ht]
  simp [List.chain'_cons, List.chain'_singleton]

/-- Every reported progress value is the rounding of a ratio in [0,1]
scaled to a percentage, so it lies in [0,100]. -/
theorem progressOfRatio_bounds {r : ℚ} (h0 : 0 ≤ r) (h1 : r ≤ 1) :
    0 ≤ Ffmpeg.progressOfRatio r ∧ Ffmpeg.progressOfRatio r ≤ 100 := by
  unfold Ffmpeg.progressOfRatio Ffmpeg.jsRound
  constructor
  · have : (0 : ℚ) ≤ r * 100 + 1 / 2 := by nlinarith
    exact Int.le_floor.mpr (by exact_mod_cast this)
  · have : r * 100 + 1 / 2 ≤ 100 + 1 / 2 := by nlinarith
    calc ⌊r * 100 + 1 / 2⌋ ≤ ⌊(100 : ℚ) + 1 / 2⌋ := Int.floor_le_floor this
      _ = 100 := by norm_num [Int.floor_eq_iff]

/-- Rounding preserves the ordering of ratios. -/
theorem progressOfRatio_mono {a b : ℚ} (h : a ≤ b) :
    Ffmpeg.progressOfRatio a ≤ Ffmpeg.progressOfRatio b := by
  unfold Ffmpeg.progressOfRatio Ffmpeg.jsRound
  exact Int.floor_le_floor (by nlinarith)

/-- C4 amended: with engine ratios in [0,1], every reported progress
value lies in [0,100]; and when the conversion succeeds and the engine's
ratio callbacks are non-decreasing, the whole reported sequence is
non-decreasing.  On the failure path the terminal value resets to 0,
which breaks monotonicity whenever progress had been reported. -/
theorem C4_amended (ratios : List ℚ) (runOk : Bool)
    (hb : ∀ r ∈ ratios, 0 ≤ r ∧ r ≤ 1) :
    (∀ p ∈ Ffmpeg.progressTrace ratios runOk, 0 ≤ p ∧ p ≤ 100) ∧
    (List.Chain' (· ≤ ·) ratios → runOk = true →
        List.Chain' (· ≤ ·) (Ffmpeg.progressTrace ratios runOk)) := by
  constructor
  · intro p hp
    unfold Ffmpeg.progressTrace at hp
    rcases List.mem_cons.mp hp with rfl | hp
    · exact ⟨le_refl 0, by norm_num⟩
    rcases List.mem_append.mp hp with hp | hp
    · obtain ⟨r, hr, rfl⟩ := List.mem_map.mp hp
      exact progressOfRatio_bounds (hb r hr).1 (hb r hr).2
    · rcases List.mem_singleton.mp hp with rfl
      split <;> norm_num
  · rintro hchain rfl
    unfold Ffmpeg.progressTrace
    rw [show (0 : ℤ) :: List.map Ffmpeg.progressOfRatio ratios ++
          [if true = true then 100 else 0] =
        ((0 : ℤ) :: List.map Ffmpeg.progressOfRatio ratios) ++ [100] by simp]
    rw [List.chain'_append]
    refine ⟨?_, List.chain'_singleton _, ?_⟩
    · rw [List.chain'_cons']
      constructor
      · intro y hy
        have hy' : y ∈ List.map Ffmpeg.progressOfRatio ratios :=
          List.mem_of_mem_head? hy
        obtain ⟨r, hr, rfl⟩ := List.mem_map.mp hy'
        exact (progressOfRatio_bounds (hb r hr).1 (hb r hr).2).1
      · exact (List.chain'_map Ffmpeg.progressOfRatio).mpr
          (hchain.imp fun a b h => progressOfRatio_mono h)
    · intro x hx y hy
      rcases List.mem_singleton.mp (List.mem_of_mem_head? hy) with rfl
      have hx' : x ∈ (0 : ℤ) :: List.map Ffmpeg.progressOfRatio ratios :=
        List.mem_of_mem_getLast? hx
      rcases List.mem_cons.mp hx' with rfl | hx'
      · norm_num
      · obtain ⟨r, hr, rfl⟩ := List.mem_map.mp hx'
        exact (progressOfRatio_bounds (hb r hr).1 (hb r hr).2).2

/-- Witness for C4 amended on a concrete successful two-callback run. -/
theorem C4_witness :
    (∀ p ∈ Ffmpeg.progressTrace [1 / 4, 1 / 2] true, 0 ≤ p ∧ p ≤ 100) ∧
    List.Chain' (· ≤ ·) (Ffmpeg.progressTrace [1 / 4, 1 / 2] true) :=
  ⟨(C4_amended [1 / 4, 1 / 2] true (by norm_num)).1,
   (C4_amended [1 / 4, 1 / 2] true (by norm_num)).2
     (by norm_num [List.chain'_cons, List.chain'_singleton]) rfl⟩

/-- C3 counterexample: on a host that supports only the bare
`video/mp4` container, `trueMp4Supported` holds, so the recorder is
handed the exact mp4 codec string even though that exact string was
never confirmed by the capability query. -/
theorem C3_counterexample :
    V2.trueMp4Supported (fun s => s == "video/mp4") = true ∧
    V2.chooseMimeType (fun s => s == "video/mp4") "mp4-h264" = V2.mp4Full ∧
    (fun s => s == "video/mp4") V2.mp4Full = false := by
  decide

/-- C3 amended: the VP9 and VP8 mimes are handed to the encoder only when
individually confirmed by the capability query; the exact mp4 codec
string is handed over exactly when some of the three mp4 probes succeeds
for the mp4 format (so the exact string itself need not be confirmed);
and whenever none of those guards holds the terminal `video/webm`
fallback is handed over with no hypothesis at all on whether
`video/webm` is supported — i.e. without confirmation. -/
theorem C3_amended (sup : String → Bool) (v : String) :
    (V2.chooseMimeType sup v = "video/webm; codecs=vp9" →
        sup "video/webm; codecs=vp9" = true) ∧
    (V2.chooseMimeType sup v = "video/webm; codecs=vp8" →
        sup "video/webm; codecs=vp8" = true) ∧
    (V2.chooseMimeType sup v = V2.mp4Full →
        V2.trueMp4Supported sup = true) ∧
    (V2.trueMp4Supported sup = true →
        V2.chooseMimeType sup "mp4-h264" = V2.mp4Full) ∧
    (V2.useMp4 sup v = false →
        sup "video/webm; codecs=vp9" = false →
        sup "video/webm; codecs=vp8" = false →
        V2.chooseMimeType sup v = "video/webm") := by
  refine ⟨?_, ?_, ?_, ?_, ?_⟩
  · unfold V2.chooseMimeType
    split_ifs with h1 h2 h3 <;> intro he
    · exact absurd he (by decide)
    · exact h2
    · exact absurd he (by decide)
    · exact absurd he (by decide)
  · unfold V2.chooseMimeType
    split_ifs with h1 h2 h3 <;> intro he
    · exact absurd he (by decide)
    · exact absurd he (by decide)
    · exact h3
    · exact absurd he (by decide)
  · unfold V2.chooseMimeType
    split_ifs with h1 h2 h3 <;> intro he
    · unfold V2.useMp4 at h1
      exact (Bool.and_eq_true_iff.mp h1).2
    · exact absurd he (by decide)
    · exact absurd he (by decide)
    · exact absurd he (by decide)
  · intro ht
    have hu : V2.useMp4 sup "mp4-h264" = true := by
      unfold V2.useMp4
      simp [ht]
    simp [V2.chooseMimeType, hu]
  · intro h1 h2 h3
    simp [V2.chooseMimeType, h1, h2, h3]

/-- Witness for C3 amended: a confirmed VP9 host hands over VP9; a
bare-mp4 host is handed the full codec string; a host that confirms
nothing is still handed the `video/webm` fallback. -/
theorem C3_witness :
    (fun s => s == "video/webm; codecs=vp9") "video/webm; codecs=vp9" = true ∧
    V2.chooseMimeType (fun s => s == "video/mp4") "mp4-h264" = V2.mp4Full ∧
    V2.chooseMimeType (fun _ => false) "webm-vp9" = "video/webm" :=
  ⟨(C3_amended (fun s => s == "video/webm; codecs=vp9") "webm-vp9").1
      (by decide),
   (C3_amended (fun s => s == "video/mp4") "mp4-h264").2.2.2.1 (by decide),
   (C3_amended (fun _ => false) "webm-vp9").2.2.2.2 (by decide) (by decide)
      (by decide)⟩

/-- Every mime the variant-1 chain can hand to the recorder contains
"webm" and not "mp4", so the history entry's extension is "webm". -/
theorem fileExtensionFor_webm (m : String) (fmt : FormatOption)
    (hm : strIncludes m "mp4" = false) (hw : strIncludes m "webm" = true) :
    V1.fileExtensionFor m fmt = "webm" := by
  simp [V1.fileExtensionFor, hm, hw]

/-- C1 counterexample: with the `mkv` format selected, the achieved
extension is `webm` (the history entry records it truthfully), yet the
preview tab's Download path names the file with the requested `.mkv`
extension. -/
theorem C1_counterexample :
    (getSelectedFormatOption "mkv").extension = "mkv" ∧
    V1.fileExtensionFor (V1.chooseMimeType (fun _ => false))
        (getSelectedFormatOption "mkv") = "webm" ∧
    V1.downloadFileName (V1.previewDownloadEntry "mkv" "rec" 7)
        V1.trueMp4Supported = "rec.mkv" := by
  decide

/-- C1 amended: every history entry created from a finished variant-1
recording carries the achieved extension `webm`; the preview Download
button's file name carries the achieved `webm` extension when the
requested format's extension is `mp4` or `webm`, and carries the
originally requested extension for every other format. -/
theorem C1_amended (sup : String → Bool) (chunks : List Nat)
    (fmt : FormatOption) (u : Nat) (idStr nm : String) (r : Recording) :
    (V1.createRecordingEntry chunks (V1.chooseMimeType sup) fmt u idStr nm =
        some r → r.format = "webm") ∧
    (∀ sel nmStr u',
        ((getSelectedFormatOption sel).extension = "mp4" ∨
         (getSelectedFormatOption sel).extension = "webm") →
        V1.downloadFileName (V1.previewDownloadEntry sel nmStr u')
            V1.trueMp4Supported = sanitizeName nmStr ++ "." ++ "webm") ∧
    (∀ sel nmStr u',
        (getSelectedFormatOption sel).extension ≠ "mp4" →
        V1.downloadFileName (V1.previewDownloadEntry sel nmStr u')
            V1.trueMp4Supported =
          sanitizeName nmStr ++ "." ++ (getSelectedFormatOption sel).extension) := by
  refine ⟨?_, ?_, ?_⟩
  · intro h
    have hfmt : V1.fileExtensionFor (V1.chooseMimeType sup) fmt = "webm" := by
      unfold V1.chooseMimeType
      split_ifs <;> exact fileExtensionFor_webm _ _ (by decide) (by decide)
    unfold V1.createRecordingEntry at h
    dsimp only at h
    split at h
    · exact Option.noConfusion h
    · simp only [Option.some.injEq] at h
      subst h
      exact hfmt
  · intro sel nmStr u' hext
    unfold V1.downloadFileName V1.previewDownloadEntry
    rcases hext with h | h <;> rw [h] <;> simp [V1.trueMp4Supported]
  · intro sel nmStr u' hne
    unfold V1.downloadFileName V1.previewDownloadEntry
    have hb : ((getSelectedFormatOption sel).extension == "mp4") = false := by
      simpa using hne
    simp [hb]

/-- Witness for C1 amended at a concrete mkv-format recording and the
mp4-format preview download. -/
theorem C1_witness :
    ({ id := "1", name := "rec", url := 1, format := "webm", byteSize := 100,
       duration := "00:00" } : Recording).format = "webm" ∧
    V1.downloadFileName (V1.previewDownloadEntry "mp4-h264" "rec" 3)
        V1.trueMp4Supported = sanitizeName "rec" ++ "." ++ "webm" :=
  ⟨(C1_amended (fun _ => false) [100] (getSelectedFormatOption "mkv") 1 "1"
      "rec"
      { id := "1", name := "rec", url := 1, format := "webm", byteSize := 100,
        duration := "00:00" }).1 (by decide),
   (C1_amended (fun _ => false) [100] (getSelectedFormatOption "mkv") 1 "1"
      "rec"
      { id := "1", name := "rec", url := 1, format := "webm", byteSize := 100,
        duration := "00:00" }).2.1 "mp4-h264" "rec" 3 (Or.inl (by decide))⟩
